import Mathlib

/-!
Shallow embedding of the playback/playlist subsystem of the `tune-in` app:
the playlist service (`services/playlist`), the audio player provider
(`contexts/AudioPlayerContext.tsx`) and the drag-reorder handler of the
playlist-detail screen, together with proofs of the specified properties.
-/

namespace TuneIn

/-- Metadata record of a downloaded track (`DownloadedSong` in `services/api`). -/
structure DownloadedSong where
  id : String
  title : String
  artist : String
  album : String
  coverImage : String
  filePath : String
  downloadDate : String
deriving Repr, DecidableEq

/-- A stored playlist (`Playlist` in `services/playlist`); `coverImage?` is an
optional string, absent (`none`) when unset. -/
structure Playlist where
  id : String
  name : String
  songs : List DownloadedSong
  createdAt : String
  updatedAt : String
  coverImage : Option String
deriving Repr, DecidableEq

/-- JS `Array.prototype.findIndex`: index of the first element satisfying `p`,
or `-1` when there is none. -/
def findIndex (p : α → Bool) : List α → Int
  | [] => -1
  | x :: xs =>
    if p x then 0
    else
      let r := findIndex p xs
      if r = -1 then -1 else r + 1

/-- JS truthiness of the optional `coverImage` string: `undefined` and the
empty string are the falsy cases of `!playlist.coverImage`. -/
def coverFalsy : Option String → Bool
  | none => true
  | some s => s.isEmpty

/-- Model of the durable key-value store (`AsyncStorage`) restricted to the one
`user_playlists` key and viewed at the parsed level: `getItem` yields the
stored collection (`none` when the key is absent) or fails, `setItem` writes a
collection and either succeeds or fails. -/
structure AsyncStorageModel where
  getItem : Except String (Option (List Playlist))
  setItem : List Playlist → Except String Unit

/-- A store whose I/O succeeds and which currently holds the collection `ps`. -/
def goodStore (ps : List Playlist) : AsyncStorageModel :=
  { getItem := Except.ok (some ps), setItem := fun _ => Except.ok () }

/-- A store whose read fails with message `e`. -/
def failReadStore (e : String) : AsyncStorageModel :=
  { getItem := Except.error e, setItem := fun _ => Except.ok () }

/-- A store holding `ps` whose write fails with message `e`. -/
def failWriteStore (ps : List Playlist) (e : String) : AsyncStorageModel :=
  { getItem := Except.ok (some ps), setItem := fun _ => Except.error e }

/-- `getPlaylists`: parse the stored collection; an absent key yields `[]`, and
a read failure is caught and also yields `[]` (the `catch` branch of the source
returns `[]` instead of rethrowing). -/
def getPlaylists (st : AsyncStorageModel) : List Playlist :=
  match st.getItem with
  | Except.ok (some playlists) => playlists
  | Except.ok none => []
  | Except.error _ => []

/-- `savePlaylist`: re-read the collection, replace the first playlist with the
same `id` (`findIndex` then index assignment) or push, then write the whole
collection back; a write failure is rethrown. On success the written
collection is returned so that postconditions can inspect the new store. -/
def savePlaylist (st : AsyncStorageModel) (playlist : Playlist) :
    Except String (List Playlist) :=
  let playlists := getPlaylists st
  let existingIndex := findIndex (fun p => p.id == playlist.id) playlists
  let updated :=
    if existingIndex > -1 then playlists.set existingIndex.toNat playlist
    else playlists ++ [playlist]
  match st.setItem updated with
  | Except.ok _ => Except.ok updated
  | Except.error e => Except.error e

/-- `createPlaylist(name)`: builds the record with
`id = "playlist_" + Date.now() + "_" + <random suffix>`, empty `songs`, both
timestamps set to the current ISO time and no `coverImage`, then persists it
through `savePlaylist`. `now`, `rand` and `nowISO` stand for `Date.now()`, the
random suffix and `new Date().toISOString()`. -/
def createPlaylist (st : AsyncStorageModel) (name : String) (now : Nat)
    (rand : String) (nowISO : String) : Except String (Playlist × List Playlist) :=
  let playlist : Playlist :=
    { id := "playlist_" ++ toString now ++ "_" ++ rand
      name := name
      songs := []
      createdAt := nowISO
      updatedAt := nowISO
      coverImage := none }
  match savePlaylist st playlist with
  | Except.ok stored => Except.ok (playlist, stored)
  | Except.error e => Except.error e

/-- `deletePlaylist`: filter the collection by `id` and write it back; a write
failure is rethrown. -/
def deletePlaylist (st : AsyncStorageModel) (playlistId : String) :
    Except String (List Playlist) :=
  let playlists := getPlaylists st
  let updatedPlaylists := playlists.filter (fun p => p.id != playlistId)
  match st.setItem updatedPlaylists with
  | Except.ok _ => Except.ok updatedPlaylists
  | Except.error e => Except.error e

/-- `addSongToPlaylist`: `findIndex` by playlist id and access of the found
element (modelled by `List.find?`, which is that composition); throws
`"Playlist not found"` when absent and `"Song already exists in playlist"`
when a song with the same `id` is already present; otherwise pushes the song,
refreshes `updatedAt`, sets `coverImage` from the first song when it was falsy,
and persists through `savePlaylist`. An `Except.error` result is raised before
(or by) the single `setItem`, so the stored collection is untouched then. -/
def addSongToPlaylist (st : AsyncStorageModel) (playlistId : String)
    (song : DownloadedSong) (nowISO : String) : Except String (List Playlist) :=
  let playlists := getPlaylists st
  match playlists.find? (fun p => p.id == playlistId) with
  | none => Except.error "Playlist not found"
  | some playlist =>
    if playlist.songs.any (fun s => s.id == song.id) then
      Except.error "Song already exists in playlist"
    else
      let songs := playlist.songs ++ [song]
      let coverImage :=
        match coverFalsy playlist.coverImage, songs with
        | true, s0 :: _ => some s0.coverImage
        | _, _ => playlist.coverImage
      savePlaylist st
        { playlist with songs := songs, updatedAt := nowISO, coverImage := coverImage }

/-- `removeSongFromPlaylist`: find the playlist (throwing `"Playlist not
found"` when absent), filter its songs by `songId`, refresh `updatedAt`,
recompute `coverImage` from the new first song (`undefined` when the playlist
became empty) and persist through `savePlaylist`. -/
def removeSongFromPlaylist (st : AsyncStorageModel) (playlistId songId : String)
    (nowISO : String) : Except String (List Playlist) :=
  let playlists := getPlaylists st
  match playlists.find? (fun p => p.id == playlistId) with
  | none => Except.error "Playlist not found"
  | some playlist =>
    let songs := playlist.songs.filter (fun s => s.id != songId)
    let coverImage :=
      match songs with
      | s0 :: _ => some s0.coverImage
      | [] => none
    savePlaylist st
      { playlist with songs := songs, updatedAt := nowISO, coverImage := coverImage }

/-- `getPlaylist`: `find` by id over the collection, `null` (here `none`) when
absent; its `catch` branch is unreachable because `getPlaylists` never throws. -/
def getPlaylist (st : AsyncStorageModel) (playlistId : String) : Option Playlist :=
  (getPlaylists st).find? (fun p => p.id == playlistId)

/-!
The audio player provider (`contexts/AudioPlayerContext.tsx`). The React
state fields are embedded directly; `openHandles` additionally models the
audio runtime (`expo-av`): the list of sound resources currently loaded.
A handle is a `Nat` naming one `Audio.Sound` instance. Operations are
invoked serially (the app's single-threaded, cooperative model), so each
operation is a function of the state plus the outcomes of its awaited
runtime calls.
-/

/-- The provider's state (`useState` fields of `AudioPlayerProvider`) together
with the runtime's set of open resources. -/
structure PlayerState where
  currentSong : Option DownloadedSong
  isPlaying : Bool
  isLoading : Bool
  playbackInstance : Option Nat
  duration : Int
  position : Int
  playlist : List DownloadedSong
  error : Option String
  playlistSource : String
  openHandles : List Nat
deriving Repr, DecidableEq

/-- The provider's initial state: no song, nothing loaded, empty playlist,
source `"library"`. -/
def initialState : PlayerState :=
  { currentSong := none
    isPlaying := false
    isLoading := false
    playbackInstance := none
    duration := 0
    position := 0
    playlist := []
    error := none
    playlistSource := "library"
    openHandles := [] }

/-- The `if (playbackInstance) { await unloadAsync(); setPlaybackInstance(null) }`
block shared by `playSong`, `stopSong` and `stopPlayback`: the loaded resource
is released by the runtime and the handle cleared. -/
def unloadPrevious (s : PlayerState) : PlayerState :=
  match s.playbackInstance with
  | some h =>
    { s with
      openHandles := s.openHandles.filter (fun x => x ≠ h)
      playbackInstance := none }
  | none => s

/-- `Audio.Sound.createAsync` succeeded with a new resource `h`:
`setPlaybackInstance(sound); setCurrentSong(song); setIsPlaying(true)`. -/
def loadNew (s : PlayerState) (song : DownloadedSong) (h : Nat) : PlayerState :=
  { s with
    openHandles := h :: s.openHandles
    playbackInstance := some h
    currentSong := some song
    isPlaying := true }

/-- The `catch` branch of `playSong`: the load threw, no resource was created. -/
def playSongFailed (s : PlayerState) : PlayerState :=
  { s with
    error := some "Failed to play song"
    isLoading := false
    currentSong := none
    isPlaying := false }

/-- Final state of one `playSong(song)` call; `h` is the handle the runtime
allocates for the new resource and `ok` tells whether `createAsync` succeeds. -/
def playSong (s : PlayerState) (song : DownloadedSong) (h : Nat) (ok : Bool) :
    PlayerState :=
  let s1 := unloadPrevious { s with isLoading := true, error := none }
  if ok then loadNew s1 song h else playSongFailed s1

/-- The observable states during one `playSong(song)` call, in order: after
`setIsLoading(true); setError(null)`, after the previous instance is unloaded
(the instant at which `createAsync` is about to run), and after the load
completes or fails. -/
def playSongStates (s : PlayerState) (song : DownloadedSong) (h : Nat) (ok : Bool) :
    List PlayerState :=
  let s0 := { s with isLoading := true, error := none }
  let s1 := unloadPrevious s0
  [s0, s1, if ok then loadNew s1 song h else playSongFailed s1]

/-- One `playSong` request of a call sequence: the song, the handle the runtime
would allocate, and whether the load succeeds. -/
structure PlayRequest where
  song : DownloadedSong
  handle : Nat
  ok : Bool

/-- All observable states along a serial sequence of `playSong` calls starting
from `s` (including `s` itself). -/
def playSeqStates (s : PlayerState) : List PlayRequest → List PlayerState
  | [] => [s]
  | r :: rest =>
    playSongStates s r.song r.handle r.ok ++
      playSeqStates (playSong s r.song r.handle r.ok) rest

/-- Runtime invariant: the resources open in the runtime are exactly the
tracked playback instance. -/
def handlesInv (s : PlayerState) : Prop :=
  s.openHandles = s.playbackInstance.toList

/-- `getCurrentSongIndex`: `-1` when there is no current song or the playlist
is empty, otherwise `findIndex` by song id over the playlist. -/
def getCurrentSongIndex (playlist : List DownloadedSong)
    (currentSong : Option DownloadedSong) : Int :=
  match currentSong with
  | none => -1
  | some current =>
    if playlist.length = 0 then -1
    else findIndex (fun song => song.id == current.id) playlist

/-- `playNextSong`: the song handed to `playSong`, or `none` when the call
returns without touching any state (empty playlist, or current song not found
in it). The played index is `(currentIndex + 1) % playlist.length`. -/
def playNextSong (playlist : List DownloadedSong)
    (currentSong : Option DownloadedSong) : Option DownloadedSong :=
  if playlist.length = 0 then none
  else
    let currentIndex := getCurrentSongIndex playlist currentSong
    if currentIndex = -1 then none
    else
      let nextIndex := (currentIndex + 1) % (playlist.length : Int)
      playlist.get? nextIndex.toNat

/-- `playPreviousSong`: as `playNextSong`, with played index
`(currentIndex - 1 + playlist.length) % playlist.length`. -/
def playPreviousSong (playlist : List DownloadedSong)
    (currentSong : Option DownloadedSong) : Option DownloadedSong :=
  if playlist.length = 0 then none
  else
    let currentIndex := getCurrentSongIndex playlist currentSong
    if currentIndex = -1 then none
    else
      let previousIndex :=
        (currentIndex - 1 + (playlist.length : Int)) % (playlist.length : Int)
      playlist.get? previousIndex.toNat

/-- `seekTo(position)`: `none` when no `playbackInstance` is loaded (the call
returns without touching the resource); otherwise the value handed to
`setPositionAsync` after the bounds check (`< 0` is replaced by `0`, else a
value `> duration` is replaced by `duration`). -/
def seekTo (playbackInstance : Option Nat) (duration : Int) (position : Int) :
    Option Int :=
  match playbackInstance with
  | none => none
  | some _ =>
    let applied := if position < 0 then 0 else if position > duration then duration else position
    some applied

/-- `stopSong`: stop and unload the instance when present and clear the handle,
then clear `currentSong`, `isPlaying`, `position` and `duration`; the playlist
and `playlistSource` fields are not touched. `ok` models whether the awaited
`stopAsync`/`unloadAsync` calls succeed; on failure the `catch` only records
the error. -/
def stopSong (s : PlayerState) (ok : Bool) : PlayerState :=
  if ok then
    let s1 := unloadPrevious s
    { s1 with currentSong := none, isPlaying := false, position := 0, duration := 0 }
  else { s with error := some "Failed to stop song" }

/-- `stopPlayback`: same body as `stopSong` (stop, unload, clear transient
fields) with its own error message; the playlist is kept intact for future
use. -/
def stopPlayback (s : PlayerState) (ok : Bool) : PlayerState :=
  if ok then
    let s1 := unloadPrevious s
    { s1 with currentSong := none, isPlaying := false, position := 0, duration := 0 }
  else { s with error := some "Failed to stop playback" }

/-!
The `onDragEnd` reorder handler of the playlist-detail screen: the dragged
song is removed at `from` and re-inserted at `to` via two `splice` calls.
-/

/-- JS `array.splice(i, 1)`: the array with the element at `i` removed (nothing
is removed when `i` is out of range) together with the removed element. -/
def spliceRemove (l : List α) (i : Nat) : List α × Option α :=
  (l.take i ++ l.drop (i + 1), l.get? i)

/-- JS `array.splice(i, 0, x)`: insert `x` at position `i`; `splice` clamps the
start index, so `i ≥ length` appends at the end. -/
def spliceInsert (l : List α) (i : Nat) (x : α) : List α :=
  l.take i ++ x :: l.drop i

/-- The `onDragEnd({from, to})` update of the playlist songs: a no-op when
`from === to`, otherwise remove the dragged song at `from` and re-insert it at
`to`. The drag library only reports valid positions of the rendered list, so
the removed element always exists; the `none` branch is unreachable there. -/
def onDragEnd (songs : List DownloadedSong) (fromIndex toIndex : Nat) :
    List DownloadedSong :=
  if fromIndex ≠ toIndex then
    let (newSongs, moved) := spliceRemove songs fromIndex
    match moved with
    | some movedSong => spliceInsert newSongs toIndex movedSong
    | none => newSongs
  else songs

/-!
Fixtures used by the concrete witnesses below.
-/

/-- Fixture song `A`. -/
def songA : DownloadedSong :=
  { id := "a", title := "A", artist := "ar", album := "al"
    coverImage := "c1.jpg", filePath := "file:///a.mp3", downloadDate := "2024-01-01" }

/-- Fixture song `B`. -/
def songB : DownloadedSong :=
  { id := "b", title := "B", artist := "ar", album := "al"
    coverImage := "c2.jpg", filePath := "file:///b.mp3", downloadDate := "2024-01-02" }

/-- Fixture song `C`. -/
def songC : DownloadedSong :=
  { id := "c", title := "C", artist := "ar", album := "al"
    coverImage := "c3.jpg", filePath := "file:///c.mp3", downloadDate := "2024-01-03" }

/-- Fixture song `D`. -/
def songD : DownloadedSong :=
  { id := "d", title := "D", artist := "ar", album := "al"
    coverImage := "c4.jpg", filePath := "file:///d.mp3", downloadDate := "2024-01-04" }

/-- Fixture playlist `plA` holding song `A`, its cover derived from it. -/
def plA : Playlist :=
  { id := "pl1", name := "Mix", songs := [songA], createdAt := "2024-01-01"
    updatedAt := "2024-01-01", coverImage := some "c1.jpg" }

/-- The specified derived-cover invariant: a playlist's `coverImage` is its
first song's cover when non-empty and unset when empty. -/
def coverInvariant (p : Playlist) : Prop :=
  p.coverImage = p.songs.head?.map DownloadedSong.coverImage

/-- Fixture: a stored playlist whose id happens to equal the id
`createPlaylist` would generate for `Date.now() = 17`, suffix `"x"`. -/
def oldPl : Playlist :=
  { id := "playlist_17_x", name := "Old", songs := [songA]
    createdAt := "2024-01-01", updatedAt := "2024-01-01", coverImage := some "c1.jpg" }

/-- The record `createPlaylist` builds for the given name, clock value and
random suffix (before persisting). -/
def freshPlaylist (name : String) (now : Nat) (rand nowISO : String) : Playlist :=
  { id := "playlist_" ++ toString now ++ "_" ++ rand, name := name, songs := [],
    createdAt := nowISO, updatedAt := nowISO, coverImage := none }

/-!
Helper lemmas about `findIndex`, `find?` and `savePlaylist`.
-/

/-- `findIndex` never returns anything below `-1`. -/
theorem neg_one_le_findIndex {α} (p : α → Bool) :
    ∀ l : List α, -1 ≤ findIndex p l := by
  intro l
  induction l with
  | nil => simp [findIndex]
  | cons x xs ih =>
    simp only [findIndex]
    split
    · omega
    · split <;> omega

/-- `findIndex` returns `-1` exactly when no element satisfies the predicate. -/
theorem findIndex_eq_neg_one_iff {α} (p : α → Bool) :
    ∀ l : List α, findIndex p l = -1 ↔ ∀ x ∈ l, p x = false := by
  intro l
  induction l with
  | nil => simp [findIndex]
  | cons x xs ih =>
    have hge := neg_one_le_findIndex p xs
    by_cases hx : p x = true
    · simp [findIndex, hx]
    · simp only [Bool.not_eq_true] at hx
      simp only [findIndex, hx, Bool.false_eq_true, if_false, List.mem_cons]
      constructor
      · intro h y hy
        rcases hy with rfl | hy
        · exact hx
        · split at h
          · exact (ih.mp (by assumption)) y hy
          · omega
      · intro h
        have : findIndex p xs = -1 := ih.mpr fun y hy => h y (Or.inr hy)
        simp [this]

/-- A successful `find?` locates the element at the (nonnegative) `findIndex`. -/
theorem find?_findIndex {α} (p : α → Bool) :
    ∀ (l : List α) (a : α), l.find? p = some a →
      ∃ i : Nat, findIndex p l = (i : Int) ∧ l.get? i = some a := by
  intro l
  induction l with
  | nil => intro a h; simp at h
  | cons x xs ih =>
    intro a h
    by_cases hx : p x = true
    · rw [List.find?_cons_of_pos _ hx] at h
      exact ⟨0, by simp [findIndex, hx], by simpa using h⟩
    · simp only [Bool.not_eq_true] at hx
      rw [List.find?_cons_of_neg _ (by simp [hx])] at h
      obtain ⟨i, hi, hg⟩ := ih a h
      refine ⟨i + 1, ?_, by simpa using hg⟩
      simp only [findIndex, hx, Bool.false_eq_true, if_false, hi]
      have hne : ((i : Int)) ≠ -1 := by omega
      simp [hne]

/-- Replacing the element found by `findIndex` with an element that still
satisfies the predicate makes `find?` return the replacement. -/
theorem find?_set_of_findIndex {α} (p : α → Bool) :
    ∀ (l : List α) (i : Nat) (b : α), findIndex p l = (i : Int) → p b = true →
      (l.set i b).find? p = some b := by
  intro l
  induction l with
  | nil => intro i b h hb; simp [findIndex] at h
  | cons x xs ih =>
    intro i b h hb
    have hge := neg_one_le_findIndex p xs
    by_cases hx : p x = true
    · simp only [findIndex, hx, if_true] at h
      have : i = 0 := by omega
      subst this
      simpa using List.find?_cons_of_pos _ hb
    · simp only [Bool.not_eq_true] at hx
      simp only [findIndex, hx, Bool.false_eq_true, if_false] at h
      split at h
      · omega
      · obtain ⟨j, rfl⟩ : ∃ j, i = j + 1 := ⟨i - 1, by omega⟩
        have hj : findIndex p xs = (j : Int) := by omega
        have : (x :: xs).set (j + 1) b = x :: xs.set j b := rfl
        rw [this, List.find?_cons_of_neg _ (by simp [hx])]
        exact ih j b hj hb

/-- An element appended behind a prefix with no matches is what `find?` finds. -/
theorem find?_append_last {α} (p : α → Bool) (l : List α) (b : α)
    (hl : ∀ x ∈ l, p x = false) (hb : p b = true) :
    (l ++ [b]).find? p = some b := by
  induction l with
  | nil => rw [List.nil_append]; exact List.find?_cons_of_pos _ hb
  | cons x xs ih =>
    rw [List.cons_append, List.find?_cons_of_neg _ (by simp [hl x (by simp)])]
    exact ih fun y hy => hl y (List.mem_cons_of_mem _ hy)

/-- `savePlaylist` on a working store replaces in place when `findIndex` hits. -/
theorem savePlaylist_set (ps : List Playlist) (pl2 : Playlist) (pid : String)
    (i : Nat) (hid : pl2.id = pid)
    (h : findIndex (fun p => p.id == pid) ps = (i : Int)) :
    savePlaylist (goodStore ps) pl2 = Except.ok (ps.set i pl2) := by
  subst hid
  unfold savePlaylist
  simp only [getPlaylists, goodStore, h]
  have hgt : ((i : Int)) > -1 := by omega
  simp [hgt]

/-- `savePlaylist` on a working store appends when `findIndex` misses. -/
theorem savePlaylist_append (ps : List Playlist) (pl2 : Playlist) (pid : String)
    (hid : pl2.id = pid)
    (h : findIndex (fun p => p.id == pid) ps = -1) :
    savePlaylist (goodStore ps) pl2 = Except.ok (ps ++ [pl2]) := by
  subst hid
  unfold savePlaylist
  simp [getPlaylists, goodStore, h]

/-- A nonnegative `findIndex` result is a valid position. -/
theorem findIndex_lt_length {α} (p : α → Bool) :
    ∀ (l : List α) (i : Nat), findIndex p l = (i : Int) → i < l.length := by
  intro l
  induction l with
  | nil => intro i h; simp [findIndex] at h
  | cons x xs ih =>
    intro i h
    have hge := neg_one_le_findIndex p xs
    by_cases hx : p x = true
    · simp [findIndex, hx] at h
      simp only [List.length_cons]
      omega
    · simp only [Bool.not_eq_true] at hx
      simp only [findIndex, hx, Bool.false_eq_true, if_false] at h
      split at h
      · omega
      · obtain ⟨j, rfl⟩ : ∃ j, i = j + 1 := ⟨i - 1, by omega⟩
        have hj : findIndex p xs = (j : Int) := by omega
        have := ih j hj
        simp [List.length_cons]
        omega

/-- The released-before-load fact: under the runtime invariant, unloading the
previous instance leaves no resource open and clears the handle. -/
theorem unloadPrevious_released (s : PlayerState) (hinv : handlesInv s) :
    (unloadPrevious s).playbackInstance = none ∧ (unloadPrevious s).openHandles = [] := by
  unfold handlesInv at hinv
  unfold unloadPrevious
  cases h : s.playbackInstance with
  | none =>
    rw [h] at hinv
    exact ⟨h, by simpa using hinv⟩
  | some hh =>
    rw [h] at hinv
    refine ⟨rfl, ?_⟩
    simp [hinv]

/-- `unloadPrevious` touches only the instance and the runtime's open set. -/
theorem unloadPrevious_frame (s : PlayerState) :
    (unloadPrevious s).currentSong = s.currentSong ∧
    (unloadPrevious s).isPlaying = s.isPlaying ∧
    (unloadPrevious s).isLoading = s.isLoading ∧
    (unloadPrevious s).duration = s.duration ∧
    (unloadPrevious s).position = s.position ∧
    (unloadPrevious s).playlist = s.playlist ∧
    (unloadPrevious s).error = s.error ∧
    (unloadPrevious s).playlistSource = s.playlistSource := by
  unfold unloadPrevious
  cases s.playbackInstance <;> simp

/-- A full `playSong` call re-establishes the runtime invariant. -/
theorem playSong_inv (s : PlayerState) (song : DownloadedSong) (h : Nat) (ok : Bool)
    (hinv : handlesInv s) : handlesInv (playSong s song h ok) := by
  have h0 : handlesInv { s with isLoading := true, error := none } := hinv
  obtain ⟨h1, h2⟩ := unloadPrevious_released _ h0
  unfold playSong
  cases ok <;> unfold handlesInv <;> simp [loadNew, playSongFailed, h1, h2]

/-- Every observable state inside one `playSong` call has at most one open
resource. -/
theorem playSongStates_bound (s : PlayerState) (song : DownloadedSong) (h : Nat)
    (ok : Bool) (hinv : handlesInv s) :
    ∀ t ∈ playSongStates s song h ok, t.openHandles.length ≤ 1 := by
  have h0 : handlesInv { s with isLoading := true, error := none } := hinv
  obtain ⟨h1, h2⟩ := unloadPrevious_released _ h0
  intro t ht
  unfold playSongStates at ht
  simp only [List.mem_cons, List.not_mem_nil, or_false] at ht
  rcases ht with rfl | rfl | rfl
  · show s.openHandles.length ≤ 1
    rw [hinv]
    cases s.playbackInstance <;> simp
  · rw [h2]; simp
  · cases ok <;> simp [loadNew, playSongFailed, h2]

/-- Every observable state along a serial sequence of `playSong` calls has at
most one open resource. -/
theorem playSeq_bound (reqs : List PlayRequest) :
    ∀ (s : PlayerState), handlesInv s →
      ∀ t ∈ playSeqStates s reqs, t.openHandles.length ≤ 1 := by
  induction reqs with
  | nil =>
    intro s hinv t ht
    simp [playSeqStates] at ht
    rw [ht, hinv]
    cases s.playbackInstance <;> simp
  | cons r rest ih =>
    intro s hinv t ht
    simp only [playSeqStates, List.mem_append] at ht
    rcases ht with h1 | h2
    · exact playSongStates_bound s r.song r.handle r.ok hinv t h1
    · exact ih _ (playSong_inv s r.song r.handle r.ok hinv) t h2

/-- **C1**: along any serial sequence of `playSong` calls started in a state
satisfying the runtime invariant, every observable state has at most one open
audio resource; moreover each call first fully releases the previous playback
instance (the handle is cleared and no resource is open) and only then begins
loading the new resource. -/
theorem claim_C1_atMostOneResource (s : PlayerState) (reqs : List PlayRequest)
    (hinv : handlesInv s) :
    (∀ t ∈ playSeqStates s reqs, t.openHandles.length ≤ 1) ∧
    (∀ song h ok, ∃ s1,
      playSongStates s song h ok =
        [{ s with isLoading := true, error := none }, s1,
          if ok then loadNew s1 song h else playSongFailed s1] ∧
      s1.playbackInstance = none ∧ s1.openHandles = []) := by
  refine ⟨playSeq_bound reqs s hinv, ?_⟩
  intro song h ok
  have h0 : handlesInv { s with isLoading := true, error := none } := hinv
  obtain ⟨h1, h2⟩ := unloadPrevious_released _ h0
  exact ⟨unloadPrevious { s with isLoading := true, error := none }, rfl, h1, h2⟩

/-- Witness for C1 at a concrete input: two successful plays followed by a
failing one, starting from the provider's initial state. -/
theorem claim_C1_witness :
    (playSong initialState songA 1 true).openHandles.length ≤ 1 := by
  have h := (claim_C1_atMostOneResource initialState
      [⟨songA, 1, true⟩, ⟨songB, 2, true⟩] rfl).1
  refine h _ ?_
  show playSong initialState songA 1 true ∈ _
  decide

/-- **C8**: `seekTo` clamps the target into `[0, duration]` before handing it
to the resource: with a loaded instance a negative target is applied as `0`, a
target beyond the duration as `duration`, every applied value lies in
`[0, duration]`, and without a loaded instance the call is a no-op. -/
theorem claim_C8_seekClamp (h : Nat) (duration position : Int)
    (hdur : 0 ≤ duration) :
    (position < 0 → seekTo (some h) duration position = some 0) ∧
    (position > duration → seekTo (some h) duration position = some duration) ∧
    (∀ applied, seekTo (some h) duration position = some applied →
      0 ≤ applied ∧ applied ≤ duration) ∧
    seekTo none duration position = none := by
  refine ⟨?_, ?_, ?_, rfl⟩
  · intro hneg
    simp [seekTo, hneg]
  · intro hgt
    have : ¬ position < 0 := by omega
    simp [seekTo, this, hgt]
  · intro applied happ
    simp only [seekTo] at happ
    split_ifs at happ <;> (injection happ with happ) <;> omega

/-- Witness for C8 at the spec's concrete inputs: `seek(-100)` with
`duration = 200000` applies `0`, `seek(999999)` applies `200000`. -/
theorem claim_C8_witness :
    seekTo (some 1) 200000 (-100) = some 0 ∧
    seekTo (some 1) 200000 999999 = some 200000 := by
  exact ⟨(claim_C8_seekClamp 1 200000 (-100) (by omega)).1 (by omega),
    (claim_C8_seekClamp 1 200000 999999 (by omega)).2.1 (by omega)⟩

/-- **C10**: on success, `stopSong` and `stopPlayback` release the loaded
resource (no open handle, instance cleared), clear `currentSong`, set
`isPlaying` to `false` and reset `position` and `duration` to `0`, while the
queue (`playlist`) and the source tag (`playlistSource`) are left unchanged. -/
theorem claim_C10_stopClears (s : PlayerState) (hinv : handlesInv s) :
    ((stopSong s true).playbackInstance = none ∧
      (stopSong s true).openHandles = [] ∧
      (stopSong s true).currentSong = none ∧
      (stopSong s true).isPlaying = false ∧
      (stopSong s true).position = 0 ∧
      (stopSong s true).duration = 0 ∧
      (stopSong s true).playlist = s.playlist ∧
      (stopSong s true).playlistSource = s.playlistSource) ∧
    ((stopPlayback s true).playbackInstance = none ∧
      (stopPlayback s true).openHandles = [] ∧
      (stopPlayback s true).currentSong = none ∧
      (stopPlayback s true).isPlaying = false ∧
      (stopPlayback s true).position = 0 ∧
      (stopPlayback s true).duration = 0 ∧
      (stopPlayback s true).playlist = s.playlist ∧
      (stopPlayback s true).playlistSource = s.playlistSource) := by
  obtain ⟨h1, h2⟩ := unloadPrevious_released s hinv
  obtain ⟨-, -, -, -, -, hpl, -, hsrc⟩ := unloadPrevious_frame s
  constructor <;>
    exact ⟨h1, h2, rfl, rfl, rfl, rfl, by simpa [stopSong, stopPlayback] using hpl,
      by simpa [stopSong, stopPlayback] using hsrc⟩

/-- Witness for C10: stopping after one successful play from the initial state. -/
theorem claim_C10_witness :
    (stopSong (playSong initialState songA 1 true) true).openHandles = [] ∧
    (stopPlayback (playSong initialState songA 1 true) true).currentSong = none := by
  have hinv : handlesInv (playSong initialState songA 1 true) :=
    playSong_inv initialState songA 1 true rfl
  have h := claim_C10_stopClears (playSong initialState songA 1 true) hinv
  exact ⟨h.1.2.1, h.2.2.2.1⟩

/-- The removal half of a `splice(i, 1)` call is `List.eraseIdx`. -/
theorem spliceRemove_fst_eq_eraseIdx {α} :
    ∀ (l : List α) (i : Nat), (spliceRemove l i).1 = l.eraseIdx i := by
  intro l
  induction l with
  | nil => intro i; cases i <;> rfl
  | cons x xs ih =>
    intro i
    cases i with
    | zero => simp [spliceRemove, List.eraseIdx]
    | succ j =>
      have := ih j
      simp only [spliceRemove] at this ⊢
      simp [List.eraseIdx, this]

/-- An in-range `splice(i, 0, x)` insertion is `List.insertIdx`. -/
theorem spliceInsert_eq_insertIdx {α} :
    ∀ (l : List α) (i : Nat) (x : α), i ≤ l.length →
      spliceInsert l i x = l.insertIdx i x := by
  intro l
  induction l with
  | nil =>
    intro i x h
    cases i with
    | zero => rfl
    | succ j => simp at h
  | cons y ys ih =>
    intro i x h
    cases i with
    | zero => rfl
    | succ j =>
      simp only [spliceInsert, List.take_succ_cons, List.drop_succ_cons,
        List.cons_append, List.insertIdx_succ_cons]
      rw [← ih j x (by simpa using h)]
      rfl

/-- **C9**: `onDragEnd` with `fromIndex = toIndex` is a no-op; otherwise it
moves the element at `fromIndex` to position `toIndex`: the result is the
erase-then-insert of the moved element, the moved element sits at `toIndex`,
deleting it there restores the rest in their original relative order, and the
length is preserved. -/
theorem claim_C9_reorder (songs : List DownloadedSong) (fromIndex toIndex : Nat)
    (hfrom : fromIndex < songs.length) (hto : toIndex < songs.length) :
    (fromIndex = toIndex → onDragEnd songs fromIndex toIndex = songs) ∧
    (fromIndex ≠ toIndex →
      ∀ moved, songs.get? fromIndex = some moved →
        onDragEnd songs fromIndex toIndex =
          (songs.eraseIdx fromIndex).insertIdx toIndex moved ∧
        (onDragEnd songs fromIndex toIndex).get? toIndex = some moved ∧
        (onDragEnd songs fromIndex toIndex).eraseIdx toIndex =
          songs.eraseIdx fromIndex ∧
        (onDragEnd songs fromIndex toIndex).length = songs.length) := by
  constructor
  · intro heq
    simp [onDragEnd, heq]
  · intro hne moved hmoved
    have hlen : (songs.eraseIdx fromIndex).length = songs.length - 1 := by
      rw [List.length_eraseIdx]
      simp [hfrom]
    have hto2 : toIndex ≤ (songs.eraseIdx fromIndex).length := by omega
    have hsplice : spliceRemove songs fromIndex = (songs.eraseIdx fromIndex, some moved) := by
      have h1 := spliceRemove_fst_eq_eraseIdx songs fromIndex
      have h2 : (spliceRemove songs fromIndex).2 = some moved := hmoved
      cases hsp : spliceRemove songs fromIndex
      rw [hsp] at h1 h2
      simp only at h1 h2
      simp [h1, h2]
    have hmain : onDragEnd songs fromIndex toIndex =
        (songs.eraseIdx fromIndex).insertIdx toIndex moved := by
      simp only [onDragEnd, hne, ne_eq, not_false_iff, if_true, hsplice]
      exact spliceInsert_eq_insertIdx _ _ _ hto2
    refine ⟨hmain, ?_, ?_, ?_⟩
    · rw [hmain]
      have hlt : toIndex < ((songs.eraseIdx fromIndex).insertIdx toIndex moved).length := by
        rw [List.length_insertIdx _ _ hto2]
        omega
      rw [List.get?_eq_getElem?, List.getElem?_eq_getElem hlt]
      exact congrArg some (List.getElem_insertIdx_self _ _ _ hto2)
    · rw [hmain, List.eraseIdx_insertIdx]
    · rw [hmain, List.length_insertIdx _ _ hto2]
      omega

/-- Witness for C9 at the spec's concrete input: `[A,B,C,D]` reordered with
`fromIndex 0`, `toIndex 2` yields `[B,C,A,D]`; equal indices are a no-op. -/
theorem claim_C9_witness :
    onDragEnd [songA, songB, songC, songD] 0 2 = [songB, songC, songA, songD] ∧
    onDragEnd [songA, songB, songC, songD] 1 1 = [songA, songB, songC, songD] := by
  have h := (claim_C9_reorder [songA, songB, songC, songD] 0 2
      (by decide) (by decide)).2 (by decide) songA rfl
  have h2 := (claim_C9_reorder [songA, songB, songC, songD] 1 1
      (by decide) (by decide)).1 rfl
  exact ⟨h.1.trans (by decide), h2⟩

/-- **C2**: with an empty queue, or when no queue entry's id matches the
current song's id, `playNextSong` and `playPreviousSong` play nothing (the
calls return without changing any state); otherwise, with the current song at
the first matching index `i`, they play the entries at `(i + 1) % length` and
`(i - 1 + length) % length`; in a one-element queue both replay that song. -/
theorem claim_C2_wraparound (playlist : List DownloadedSong) (cur : DownloadedSong) :
    ((playlist = [] ∨ ∀ s ∈ playlist, s.id ≠ cur.id) →
      playNextSong playlist (some cur) = none ∧
      playPreviousSong playlist (some cur) = none) ∧
    (∀ i : Nat, findIndex (fun s => s.id == cur.id) playlist = (i : Int) →
      playNextSong playlist (some cur) = playlist.get? ((i + 1) % playlist.length) ∧
      playPreviousSong playlist (some cur) =
        playlist.get? ((i + playlist.length - 1) % playlist.length) ∧
      playNextSong playlist (some cur) ≠ none ∧
      playPreviousSong playlist (some cur) ≠ none) ∧
    (∀ a : DownloadedSong, playlist = [a] → a.id = cur.id →
      playNextSong playlist (some cur) = some a ∧
      playPreviousSong playlist (some cur) = some a) := by
  refine ⟨?_, ?_, ?_⟩
  · rintro (rfl | habsent)
    · exact ⟨rfl, rfl⟩
    · have hidx : findIndex (fun s => s.id == cur.id) playlist = -1 :=
        (findIndex_eq_neg_one_iff _ playlist).mpr fun s hs => by
          simp [habsent s hs]
      by_cases hlen : playlist.length = 0
      · constructor <;> simp [playNextSong, playPreviousSong, hlen]
      · constructor <;>
          simp [playNextSong, playPreviousSong, getCurrentSongIndex, hlen, hidx]
  · intro i hidx
    have hlt : i < playlist.length := findIndex_lt_length _ playlist i hidx
    have hlen : playlist.length ≠ 0 := by omega
    have hcur : getCurrentSongIndex playlist (some cur) = (i : Int) := by
      simp [getCurrentSongIndex, hlen, hidx]
    have hne : ((i : Int)) ≠ -1 := by omega
    have hnext : ((i : Int) + 1) % (playlist.length : Int) =
        (((i + 1) % playlist.length : Nat) : Int) := by
      rw [Int.natCast_mod]
      push_cast
      ring_nf
    have hprev : ((i : Int) - 1 + (playlist.length : Int)) % (playlist.length : Int) =
        (((i + playlist.length - 1) % playlist.length : Nat) : Int) := by
      rw [Int.natCast_mod]
      have : ((i : Int)) - 1 + (playlist.length : Int) =
          (((i + playlist.length - 1 : Nat)) : Int) := by omega
      rw [this]
    have hnextmem : (i + 1) % playlist.length < playlist.length :=
      Nat.mod_lt _ (by omega)
    have hprevmem : (i + playlist.length - 1) % playlist.length < playlist.length :=
      Nat.mod_lt _ (by omega)
    have hnexteq : playNextSong playlist (some cur) =
        playlist.get? ((i + 1) % playlist.length) := by
      simp only [playNextSong, hcur]
      rw [if_neg hlen, if_neg hne, hnext, Int.toNat_natCast]
    have hpreveq : playPreviousSong playlist (some cur) =
        playlist.get? ((i + playlist.length - 1) % playlist.length) := by
      simp only [playPreviousSong, hcur]
      rw [if_neg hlen, if_neg hne, hprev, Int.toNat_natCast]
    refine ⟨hnexteq, hpreveq, ?_, ?_⟩
    · rw [hnexteq, List.get?_eq_getElem?, List.getElem?_eq_getElem hnextmem]
      simp
    · rw [hpreveq, List.get?_eq_getElem?, List.getElem?_eq_getElem hprevmem]
      simp
  · rintro a rfl hid
    have hidx : findIndex (fun s => s.id == a.id) [a] = ((0 : Nat) : Int) := by
      simp [findIndex]
    rw [hid] at hidx
    constructor
    · simp [playNextSong, getCurrentSongIndex, hidx]
    · simp [playPreviousSong, getCurrentSongIndex, hidx]

/-- Witness for C2 at the spec's concrete inputs: queue `[A,B,C]` with current
`B` advances to `C`; previous from `A` wraps to `C`; in queue `[A]` both
operations replay `A`; with current `D` absent from `[A,B]` both are no-ops. -/
theorem claim_C2_witness :
    playNextSong [songA, songB, songC] (some songB) = some songC ∧
    playPreviousSong [songA, songB, songC] (some songA) = some songC ∧
    playNextSong [songA] (some songA) = some songA ∧
    playPreviousSong [songA] (some songA) = some songA ∧
    playNextSong [songA, songB] (some songD) = none := by
  have h1 := (claim_C2_wraparound [songA, songB, songC] songB).2.1 1 (by decide)
  have h2 := (claim_C2_wraparound [songA, songB, songC] songA).2.1 0 (by decide)
  have h3 := (claim_C2_wraparound [songA] songA).2.2 songA rfl rfl
  have h4 := (claim_C2_wraparound [songA, songB] songD).1 (Or.inr (by decide))
  exact ⟨h1.1.trans (by decide), h2.2.1.trans (by decide), h3.1, h3.2, h4.1⟩

/-- Reading a working store yields its collection. -/
theorem getPlaylists_goodStore (ps : List Playlist) :
    getPlaylists (goodStore ps) = ps := rfl

/-- The first playlist found by id has that id. -/
theorem find?_id_eq (ps : List Playlist) (pid : String) (pl : Playlist)
    (hfind : ps.find? (fun p => p.id == pid) = some pl) : pl.id = pid := by
  have h1 := @List.find?_some Playlist (fun p => p.id == pid) pl ps hfind
  exact eq_of_beq h1

/-- **C3, counterexample**: removing an absent song id from `plA` succeeds and
leaves `songs` unchanged, but the stored playlist's `updatedAt` is refreshed to
the operation's timestamp, not left unchanged as claimed. -/
theorem claim_C3_counterexample :
    removeSongFromPlaylist (goodStore [plA]) "pl1" "zzz" "2024-02-02" =
      Except.ok [{ plA with updatedAt := "2024-02-02" }] ∧
    ({ plA with updatedAt := "2024-02-02" } : Playlist).songs = plA.songs ∧
    ({ plA with updatedAt := "2024-02-02" } : Playlist).updatedAt ≠ plA.updatedAt := by
  refine ⟨rfl, rfl, by decide⟩

/-- **C3, amended**: removing a song id that is not present reports no error
and leaves the playlist's `songs` unchanged, but it refreshes `updatedAt` to
the operation's timestamp (the source sets `updatedAt` and saves on every
successful removal call, present or not). -/
theorem claim_C3_removeAbsent (ps : List Playlist) (pid songId nowISO : String)
    (pl : Playlist)
    (hfind : ps.find? (fun p => p.id == pid) = some pl)
    (habsent : ∀ s ∈ pl.songs, s.id ≠ songId) :
    ∃ stored pl2,
      removeSongFromPlaylist (goodStore ps) pid songId nowISO = Except.ok stored ∧
      getPlaylist (goodStore stored) pid = some pl2 ∧
      pl2.songs = pl.songs ∧
      pl2.updatedAt = nowISO := by
  have hid : pl.id = pid := find?_id_eq ps pid pl hfind
  obtain ⟨i, hi, hget⟩ := find?_findIndex _ ps pl hfind
  have hfilter : pl.songs.filter (fun s => s.id != songId) = pl.songs := by
    apply List.filter_eq_self.mpr
    intro s hs
    simpa using habsent s hs
  have hop : removeSongFromPlaylist (goodStore ps) pid songId nowISO =
      savePlaylist (goodStore ps)
        { pl with
          songs := pl.songs
          updatedAt := nowISO
          coverImage :=
            match pl.songs with
            | s0 :: _ => some s0.coverImage
            | [] => none } := by
    simp only [removeSongFromPlaylist, getPlaylists_goodStore, hfind, hfilter]
  have hsave := savePlaylist_set ps
    { pl with
      songs := pl.songs
      updatedAt := nowISO
      coverImage :=
        match pl.songs with
        | s0 :: _ => some s0.coverImage
        | [] => none } pid i hid hi
  have hfound := find?_set_of_findIndex (fun p => p.id == pid) ps i
    ({ pl with
      songs := pl.songs
      updatedAt := nowISO
      coverImage :=
        match pl.songs with
        | s0 :: _ => some s0.coverImage
        | [] => none }) hi (beq_iff_eq.mpr hid)
  exact ⟨_, _, hop.trans hsave, hfound, rfl, rfl⟩

/-- Witness for the amended C3 at a concrete input: playlist `plA`, absent
song id `"zzz"`. -/
theorem claim_C3_witness :
    ∃ stored pl2,
      removeSongFromPlaylist (goodStore [plA]) "pl1" "zzz" "2024-02-02" =
        Except.ok stored ∧
      getPlaylist (goodStore stored) "pl1" = some pl2 ∧
      pl2.songs = plA.songs ∧
      pl2.updatedAt = "2024-02-02" :=
  claim_C3_removeAbsent [plA] "pl1" "zzz" "2024-02-02" plA rfl (by decide)

/-- **C5**: on a working store, `addSongToPlaylist` fails exactly in two cases:
with `"Playlist not found"` when no stored playlist has the requested id, and
with `"Song already exists in playlist"` when the target playlist already
holds a song with the same id (nothing is written then, so its `songs` stay
unchanged); otherwise it succeeds, the song is appended at the end and
`updatedAt` is refreshed. -/
theorem claim_C5_addSong (ps : List Playlist) (pid nowISO : String)
    (song : DownloadedSong) :
    (ps.find? (fun p => p.id == pid) = none →
      addSongToPlaylist (goodStore ps) pid song nowISO =
        Except.error "Playlist not found") ∧
    (∀ pl, ps.find? (fun p => p.id == pid) = some pl →
      (pl.songs.any (fun s => s.id == song.id) = true →
        addSongToPlaylist (goodStore ps) pid song nowISO =
          Except.error "Song already exists in playlist") ∧
      (pl.songs.any (fun s => s.id == song.id) = false →
        ∃ stored pl2,
          addSongToPlaylist (goodStore ps) pid song nowISO = Except.ok stored ∧
          getPlaylist (goodStore stored) pid = some pl2 ∧
          pl2.songs = pl.songs ++ [song] ∧
          pl2.updatedAt = nowISO)) := by
  constructor
  · intro hnone
    simp only [addSongToPlaylist, getPlaylists_goodStore, hnone]
  · intro pl hfind
    have hid : pl.id = pid := find?_id_eq ps pid pl hfind
    obtain ⟨i, hi, hget⟩ := find?_findIndex _ ps pl hfind
    constructor
    · intro hdup
      simp only [addSongToPlaylist, getPlaylists_goodStore, hfind, hdup, if_true]
    · intro hnodup
      have hop : addSongToPlaylist (goodStore ps) pid song nowISO =
          savePlaylist (goodStore ps)
            { pl with
              songs := pl.songs ++ [song]
              updatedAt := nowISO
              coverImage :=
                match coverFalsy pl.coverImage, pl.songs ++ [song] with
                | true, s0 :: _ => some s0.coverImage
                | _, _ => pl.coverImage } := by
        simp only [addSongToPlaylist, getPlaylists_goodStore, hfind, hnodup,
          Bool.false_eq_true, if_false]
      have hsave := savePlaylist_set ps
        { pl with
          songs := pl.songs ++ [song]
          updatedAt := nowISO
          coverImage :=
            match coverFalsy pl.coverImage, pl.songs ++ [song] with
            | true, s0 :: _ => some s0.coverImage
            | _, _ => pl.coverImage } pid i hid hi
      have hfound := find?_set_of_findIndex (fun p => p.id == pid) ps i
        ({ pl with
          songs := pl.songs ++ [song]
          updatedAt := nowISO
          coverImage :=
            match coverFalsy pl.coverImage, pl.songs ++ [song] with
            | true, s0 :: _ => some s0.coverImage
            | _, _ => pl.coverImage }) hi (beq_iff_eq.mpr hid)
      exact ⟨_, _, hop.trans hsave, hfound, rfl, rfl⟩

/-- Witness for C5 at concrete inputs: adding the already-present `songA` to
`plA` is rejected as a duplicate; adding the fresh `songB` succeeds, appends
and refreshes `updatedAt`. -/
theorem claim_C5_witness :
    addSongToPlaylist (goodStore [plA]) "pl1" songA "2024-02-02" =
      Except.error "Song already exists in playlist" ∧
    ∃ stored pl2,
      addSongToPlaylist (goodStore [plA]) "pl1" songB "2024-02-02" =
        Except.ok stored ∧
      getPlaylist (goodStore stored) "pl1" = some pl2 ∧
      pl2.songs = plA.songs ++ [songB] ∧
      pl2.updatedAt = "2024-02-02" :=
  ⟨((claim_C5_addSong [plA] "pl1" "2024-02-02" songA).2 plA rfl).1 (by decide),
    ((claim_C5_addSong [plA] "pl1" "2024-02-02" songB).2 plA rfl).2 (by decide)⟩

/-- **C6**: the cover invariant is preserved by every successful
`addSongToPlaylist` and `removeSongFromPlaylist` on the target playlist:
adding to an empty playlist sets the cover from the new (first) song, adding
to a non-empty playlist leaves the cover unchanged, and removal recomputes the
cover from the new first song or clears it when the playlist becomes empty. -/
theorem claim_C6_coverInvariant (ps : List Playlist) (pid nowISO : String)
    (song : DownloadedSong) (pl : Playlist)
    (hfind : ps.find? (fun p => p.id == pid) = some pl)
    (hinv : coverInvariant pl) :
    (∀ stored, addSongToPlaylist (goodStore ps) pid song nowISO = Except.ok stored →
      ∃ pl2, getPlaylist (goodStore stored) pid = some pl2 ∧
        coverInvariant pl2 ∧
        (pl.songs = [] → pl2.coverImage = some song.coverImage) ∧
        (pl.songs ≠ [] → pl2.coverImage = pl.coverImage)) ∧
    (∀ songId stored,
      removeSongFromPlaylist (goodStore ps) pid songId nowISO = Except.ok stored →
      ∃ pl2, getPlaylist (goodStore stored) pid = some pl2 ∧
        coverInvariant pl2 ∧
        pl2.songs = pl.songs.filter (fun s => s.id != songId)) := by
  have hid : pl.id = pid := find?_id_eq ps pid pl hfind
  obtain ⟨i, hi, hget⟩ := find?_findIndex _ ps pl hfind
  constructor
  · intro stored hok
    by_cases hdup : pl.songs.any (fun s => s.id == song.id) = true
    · have herr : addSongToPlaylist (goodStore ps) pid song nowISO =
          Except.error "Song already exists in playlist" := by
        simp only [addSongToPlaylist, getPlaylists_goodStore, hfind, hdup, if_true]
      rw [herr] at hok
      cases hok
    · have hnodup : pl.songs.any (fun s => s.id == song.id) = false := by
        simpa using hdup
      have hop : addSongToPlaylist (goodStore ps) pid song nowISO =
          savePlaylist (goodStore ps)
            { pl with
              songs := pl.songs ++ [song]
              updatedAt := nowISO
              coverImage :=
                match coverFalsy pl.coverImage, pl.songs ++ [song] with
                | true, s0 :: _ => some s0.coverImage
                | _, _ => pl.coverImage } := by
        simp only [addSongToPlaylist, getPlaylists_goodStore, hfind, hnodup,
          Bool.false_eq_true, if_false]
      have hsave := savePlaylist_set ps
        { pl with
          songs := pl.songs ++ [song]
          updatedAt := nowISO
          coverImage :=
            match coverFalsy pl.coverImage, pl.songs ++ [song] with
            | true, s0 :: _ => some s0.coverImage
            | _, _ => pl.coverImage } pid i hid hi
      have hstored : stored = ps.set i
          { pl with
            songs := pl.songs ++ [song]
            updatedAt := nowISO
            coverImage :=
              match coverFalsy pl.coverImage, pl.songs ++ [song] with
              | true, s0 :: _ => some s0.coverImage
              | _, _ => pl.coverImage } := by
        rw [hop, hsave] at hok
        exact (Except.ok.inj hok).symm
      have hfound := find?_set_of_findIndex (fun p => p.id == pid) ps i
        ({ pl with
          songs := pl.songs ++ [song]
          updatedAt := nowISO
          coverImage :=
            match coverFalsy pl.coverImage, pl.songs ++ [song] with
            | true, s0 :: _ => some s0.coverImage
            | _, _ => pl.coverImage }) hi (beq_iff_eq.mpr hid)
    
      refine ⟨_, by rw [hstored]; exact hfound, ?_, ?_, ?_⟩
      · unfold coverInvariant at hinv ⊢
        cases hsongs : pl.songs with
        | nil =>
          rw [hsongs] at hinv
          simp only [List.head?, Option.map] at hinv
          simp [hsongs, hinv, coverFalsy]
        | cons s0 rest =>
          rw [hsongs] at hinv
          simp only [List.head?, Option.map] at hinv
          cases hemp : s0.coverImage.isEmpty <;>
            simp [hsongs, hinv, coverFalsy, hemp]
      · intro hsongs
        unfold coverInvariant at hinv
        rw [hsongs] at hinv
        simp only [List.head?, Option.map] at hinv
        simp [hsongs, hinv, coverFalsy]
      · intro hsongs
        unfold coverInvariant at hinv
        cases hsongs2 : pl.songs with
        | nil => exact absurd hsongs2 hsongs
        | cons s0 rest =>
          rw [hsongs2] at hinv
          simp only [List.head?, Option.map] at hinv
          cases hemp : s0.coverImage.isEmpty <;>
            simp [hsongs2, hinv, coverFalsy, hemp]
  · intro songId stored hok
    have hop : removeSongFromPlaylist (goodStore ps) pid songId nowISO =
        savePlaylist (goodStore ps)
          { pl with
            songs := pl.songs.filter (fun s => s.id != songId)
            updatedAt := nowISO
            coverImage :=
              match pl.songs.filter (fun s => s.id != songId) with
              | s0 :: _ => some s0.coverImage
              | [] => none } := by
      simp only [removeSongFromPlaylist, getPlaylists_goodStore, hfind]
    have hsave := savePlaylist_set ps
      { pl with
        songs := pl.songs.filter (fun s => s.id != songId)
        updatedAt := nowISO
        coverImage :=
          match pl.songs.filter (fun s => s.id != songId) with
          | s0 :: _ => some s0.coverImage
          | [] => none } pid i hid hi
    have hstored : stored = ps.set i
        { pl with
          songs := pl.songs.filter (fun s => s.id != songId)
          updatedAt := nowISO
          coverImage :=
            match pl.songs.filter (fun s => s.id != songId) with
            | s0 :: _ => some s0.coverImage
            | [] => none } := by
      rw [hop, hsave] at hok
      exact (Except.ok.inj hok).symm
    have hfound := find?_set_of_findIndex (fun p => p.id == pid) ps i
      ({ pl with
        songs := pl.songs.filter (fun s => s.id != songId)
        updatedAt := nowISO
        coverImage :=
          match pl.songs.filter (fun s => s.id != songId) with
          | s0 :: _ => some s0.coverImage
          | [] => none }) hi (beq_iff_eq.mpr hid)
    refine ⟨_, by rw [hstored]; exact hfound, ?_, rfl⟩
    unfold coverInvariant
    cases pl.songs.filter (fun s => s.id != songId) <;> simp

/-- Witness for C6 at concrete inputs: adding `songB` to the singleton `plA`
and removing a song from it both preserve the derived-cover invariant. -/
theorem claim_C6_witness :
    ∃ pl2, getPlaylist (goodStore [{ plA with
        songs := [songA, songB], updatedAt := "2024-02-02",
        coverImage := some "c1.jpg" }]) "pl1" = some pl2 ∧
      coverInvariant pl2 ∧
      (plA.songs = [] → pl2.coverImage = some songB.coverImage) ∧
      (plA.songs ≠ [] → pl2.coverImage = plA.coverImage) := by
  have h := (claim_C6_coverInvariant [plA] "pl1" "2024-02-02" songB plA rfl rfl).1
  exact h _ rfl

/-- **C7, counterexample**: `createPlaylist` does not ensure the generated id
is unique among stored playlists: when `Date.now()` and the random suffix
reproduce an existing id, `savePlaylist` replaces the stored playlist in place
instead of appending, destroying it. -/
theorem claim_C7_counterexample :
    ∃ created stored,
      createPlaylist (goodStore [oldPl]) "Road Trip" 17 "x" "2024-02-02" =
        Except.ok (created, stored) ∧
      created.id = oldPl.id ∧
      stored = [created] ∧
      oldPl ∉ stored := by
  refine ⟨_, _, rfl, rfl, rfl, by decide⟩

/-- **C7, amended**: for every name (in particular every name that is
non-empty after trimming; the service itself performs no name validation, its
callers trim and reject empty input before calling), `createPlaylist` builds a
record with id `"playlist_" ++ now ++ "_" ++ rand`, the given name, empty
`songs` and no `coverImage`, and persists it; provided the generated id
differs from every stored playlist's id it is appended, and `getPlaylist` on
that id round-trips to the created record. -/
theorem claim_C7_roundTrip (ps : List Playlist) (name : String) (now : Nat)
    (rand nowISO : String)
    (hfresh : ∀ p ∈ ps, p.id ≠ "playlist_" ++ toString now ++ "_" ++ rand) :
    ∃ created stored,
      createPlaylist (goodStore ps) name now rand nowISO =
        Except.ok (created, stored) ∧
      created.id = "playlist_" ++ toString now ++ "_" ++ rand ∧
      created.name = name ∧
      created.songs = [] ∧
      created.coverImage = none ∧
      (∀ p ∈ ps, p.id ≠ created.id) ∧
      stored = ps ++ [created] ∧
      getPlaylist (goodStore stored) created.id = some created := by
  have hmiss : findIndex
      (fun p => p.id == "playlist_" ++ toString now ++ "_" ++ rand) ps = -1 := by
    apply (findIndex_eq_neg_one_iff _ ps).mpr
    intro p hp
    simpa using hfresh p hp
  have hsave := savePlaylist_append ps (freshPlaylist name now rand nowISO)
    ("playlist_" ++ toString now ++ "_" ++ rand) rfl hmiss
  have hop : createPlaylist (goodStore ps) name now rand nowISO =
      Except.ok (freshPlaylist name now rand nowISO,
        ps ++ [freshPlaylist name now rand nowISO]) := by
    have hb : createPlaylist (goodStore ps) name now rand nowISO =
        match savePlaylist (goodStore ps) (freshPlaylist name now rand nowISO) with
        | Except.ok stored => Except.ok (freshPlaylist name now rand nowISO, stored)
        | Except.error e => Except.error e := rfl
    rw [hb, hsave]
  refine ⟨_, _, hop, rfl, rfl, rfl, rfl, ?_, rfl, ?_⟩
  · intro p hp
    exact hfresh p hp
  · unfold getPlaylist
    rw [getPlaylists_goodStore]
    apply find?_append_last
    · intro p hp
      simpa using hfresh p hp
    · exact beq_self_eq_true _

/-- Witness for the amended C7 at a concrete input: a non-colliding id over a
store holding `plA`. -/
theorem claim_C7_witness :
    ∃ created stored,
      createPlaylist (goodStore [plA]) "Road Trip" 17 "x" "2024-02-02" =
        Except.ok (created, stored) ∧
      created.id = "playlist_" ++ toString 17 ++ "_" ++ "x" ∧
      created.name = "Road Trip" ∧
      created.songs = [] ∧
      created.coverImage = none ∧
      (∀ p ∈ [plA], p.id ≠ created.id) ∧
      stored = [plA] ++ [created] ∧
      getPlaylist (goodStore stored) created.id = some created :=
  claim_C7_roundTrip [plA] "Road Trip" 17 "x" "2024-02-02" (by decide)

/-- **C4, counterexample**: a failing durable-store read is NOT reported to the
caller of `getPlaylists` / `getPlaylist`: both catch the failure and return the
same values (`[]` / `none`) that a working empty store produces, so the caller
cannot observe the failure at all. -/
theorem claim_C4_counterexample :
    getPlaylists (failReadStore "storage unavailable") = [] ∧
    getPlaylist (failReadStore "storage unavailable") "pl1" = none ∧
    getPlaylists (goodStore []) = [] ∧
    getPlaylist (goodStore []) "pl1" = none :=
  ⟨rfl, rfl, rfl, rfl⟩

/-- **C4, amended**: write failures of the durable store are propagated by
every mutating Playlist Store operation (`savePlaylist`, `deletePlaylist`,
`createPlaylist` always surface the store's error; `addSongToPlaylist` and
`removeSongFromPlaylist` always surface some error), but read failures are
swallowed by `getPlaylists` and `getPlaylist`, which return `[]` and `none` as
if the store were empty. -/
theorem claim_C4_propagation (ps : List Playlist) (e pid sid nowISO rand : String)
    (nm : String) (pl : Playlist) (song : DownloadedSong) (now : Nat) :
    savePlaylist (failWriteStore ps e) pl = Except.error e ∧
    deletePlaylist (failWriteStore ps e) pid = Except.error e ∧
    createPlaylist (failWriteStore ps e) nm now rand nowISO = Except.error e ∧
    (∃ msg, addSongToPlaylist (failWriteStore ps e) pid song nowISO =
      Except.error msg) ∧
    (∃ msg, removeSongFromPlaylist (failWriteStore ps e) pid sid nowISO =
      Except.error msg) ∧
    getPlaylists (failReadStore e) = [] ∧
    getPlaylist (failReadStore e) pid = none := by
  have hsaveAll : ∀ q : Playlist, savePlaylist (failWriteStore ps e) q =
      Except.error e := by
    intro q
    unfold savePlaylist
    rfl
  refine ⟨hsaveAll pl, ?_, ?_, ?_, ?_, rfl, rfl⟩
  · unfold deletePlaylist
    rfl
  · simp only [createPlaylist]
    rw [hsaveAll]
  · simp only [addSongToPlaylist]
    cases hfind : (getPlaylists (failWriteStore ps e)).find? (fun p => p.id == pid) with
    | none => exact ⟨"Playlist not found", rfl⟩
    | some pl1 =>
      by_cases hdup : pl1.songs.any (fun s => s.id == song.id) = true
      · exact ⟨"Song already exists in playlist", by simp [hdup]⟩
      · refine ⟨e, ?_⟩
        simp only [Bool.not_eq_true] at hdup
        simp [hdup, hsaveAll]
  · simp only [removeSongFromPlaylist]
    cases hfind : (getPlaylists (failWriteStore ps e)).find? (fun p => p.id == pid) with
    | none => exact ⟨"Playlist not found", rfl⟩
    | some pl1 => exact ⟨e, hsaveAll _⟩

end TuneIn
